import Mathlib

/-!
Verification of the meal-planner repository (Heemyk/meal_planner).

The development shallowly embeds:
* the frontend helpers of `src/frontend/src/App.jsx` and
  `src/frontend/src/api.js` (strings as `List Char` or `String`, JS numbers
  as `ℚ`, `null`/`undefined`/non-string values as explicit constructors), and
* the planning core (unit converter, feasibility filter, ILP solver,
  plan assembler), whose Python sources (`ilp_solver.py`,
  `sku_size_converter.py`, `api/optimize.py`) are not part of the shipped
  frontend tree; those are modelled from the specification document, as
  flagged on each such definition.

Machine floats are modelled as exact rationals; JS string operations are
modelled on ASCII (the unit tokens the code manipulates are ASCII).
-/

namespace Frontend

/-! ## `sanitizeUnit` (App.jsx lines 32-38) -/

/-- Whitespace characters matched by the JS regex class `\s` (ASCII fragment). -/
def isWsChar (c : Char) : Bool :=
  c == ' ' || c == '\t' || c == '\n' || c == '\r' || c == '\x0b' || c == '\x0c'

/-- Delimiters of `unit.split(/\s|\(|,|\)/)`. -/
def isDelimChar (c : Char) : Bool :=
  isWsChar c || c == '(' || c == ',' || c == ')'

/-- JS `String.prototype.toLowerCase` on one ASCII character. -/
def lowerChar (c : Char) : Char :=
  if 65 ≤ c.toNat ∧ c.toNat ≤ 90 then Char.ofNat (c.toNat + 32) else c

/-- JS `String.prototype.trim`: drop whitespace from both ends. -/
def jsTrim (l : List Char) : List Char :=
  ((l.dropWhile isWsChar).reverse.dropWhile isWsChar).reverse

/-- The `canonical` array of `sanitizeUnit`. -/
def canonicalUnits : List (List Char) :=
  ["g".toList, "ml".toList, "count".toList, "tbsp".toList, "tsp".toList, "units".toList]

/-- A JS value as far as `sanitizeUnit` inspects it:
`null`/`undefined`, a string, or any other value. -/
inductive JsVal where
  | nullOrUndef
  | str (s : List Char)
  | nonString
deriving DecidableEq

/-- The `first` local of `sanitizeUnit`:
`s = unit.trim().toLowerCase()`, `first = s.split(/\s|\(|,|\)/)[0]?.trim() ?? ""`.
The first component of a JS split is the prefix before the first delimiter,
so `[0]` always exists and the `?? ""` branch is dead. -/
def firstOf (u : List Char) : List Char :=
  jsTrim (((jsTrim u).map lowerChar).takeWhile (fun c => !isDelimChar c))

/-- `sanitizeUnit` (App.jsx 32-38) on the string case:
`return canonical.includes(first) ? first : (first || "units")`
(the empty string is falsy, so `first || "units"` is `"units"` iff `first` is empty). -/
def sanitizeUnitStr (u : List Char) : List Char :=
  if firstOf u ∈ canonicalUnits then firstOf u
  else if firstOf u = [] then "units".toList else firstOf u

/-- `sanitizeUnit` (App.jsx 32-38): `null` and non-string inputs return `""`. -/
def sanitizeUnit : JsVal → List Char
  | .str s => sanitizeUnitStr s
  | _ => []

/-! ## LP-options state (App.jsx lines 54-57 and 754-785) -/

/-- Result of a JS numeric parse (`parseInt` / `parseFloat`): `NaN` or a number.
Machine floats are modelled as exact rationals. -/
inductive JsNum where
  | nan
  | num (q : ℚ)
deriving DecidableEq

/-- `p || d` on a parsed number: `NaN` and `0` are the falsy numbers. -/
def jsNumOrDefault (p : JsNum) (d : ℚ) : ℚ :=
  match p with
  | .nan => d
  | .num q => if q = 0 then d else q

structure LpOptions where
  timeLimitSeconds : ℚ
  batchPenalty : ℚ
deriving DecidableEq

/-- `useState({ timeLimitSeconds: 10, batchPenalty: 0.0001 })` (App.jsx 54-57). -/
def initialLpOptions : LpOptions := { timeLimitSeconds := 10, batchPenalty := 1 / 10000 }

/-- A UI edit of one of the two LP-option inputs, carrying the value the
corresponding JS parse (`parseInt(·, 10)` resp. `parseFloat`) produced. -/
inductive LpEvent where
  | setTimeLimit (parsed : JsNum)
  | setBatchPenalty (parsed : JsNum)

/-- The two `onChange` handlers (App.jsx 761-765 and 777-781):
`timeLimitSeconds: parseInt(e.target.value, 10) || 10` and
`batchPenalty: parseFloat(e.target.value) || 0.0001`. -/
def lpStep (o : LpOptions) : LpEvent → LpOptions
  | .setTimeLimit p => { o with timeLimitSeconds := jsNumOrDefault p 10 }
  | .setBatchPenalty p => { o with batchPenalty := jsNumOrDefault p (1 / 10000) }

/-- The LP-options state after any sequence of UI edits. -/
def lpRun (evs : List LpEvent) : LpOptions := evs.foldl lpStep initialLpOptions

/-! ## `createPlan` request body (api.js lines 285-306, called from
App.jsx `handlePlan`, lines 197-224) -/

/-- The `options` argument `handlePlan` passes to `createPlan`: the LP options
spread plus the filter selections. `Option.none` models a field that is
absent or `undefined`. -/
structure PlanCallOptions where
  timeLimitSeconds : Option ℚ
  batchPenalty : Option ℚ
  mealConfig : Option (List (String × ℚ))
  storeSlugs : Option (List String)
  excludeAllergens : Option (List String)
  includeEveryRecipeIds : Option (List ℤ)
  requiredRecipeIds : Option (List ℤ)

/-- A JSON value as it appears in the plan request body. -/
inductive JsonVal where
  | num (q : ℚ)
  | str (s : String)
  | arrStr (l : List String)
  | arrInt (l : List ℤ)
  | obj (fields : List (String × ℚ))

/-- The body object built by `createPlan` (api.js 287-294), as an ordered
association list:
`body = { target_servings }`, then
`if (postalCode) body.postal_code = postalCode;`
`if (options.timeLimitSeconds != null) body.time_limit_seconds = …;`
`if (options.batchPenalty != null) body.batch_penalty = …;`
`if (options.mealConfig && Object.keys(options.mealConfig).length) body.meal_config = …;`
`if (options.storeSlugs?.length) body.store_slugs = …;`
`if (options.excludeAllergens?.length) body.exclude_allergens = …;`
(an empty string is falsy, hence the nonemptiness test on `postalCode`). -/
def createPlanBody (targetServings : ℚ) (postalCode : Option String)
    (options : PlanCallOptions) : List (String × JsonVal) :=
  [("target_servings", .num targetServings)]
  ++ (match postalCode with
      | some p => if p ≠ "" then [("postal_code", .str p)] else []
      | none => [])
  ++ (match options.timeLimitSeconds with
      | some t => [("time_limit_seconds", .num t)]
      | none => [])
  ++ (match options.batchPenalty with
      | some b => [("batch_penalty", .num b)]
      | none => [])
  ++ (match options.mealConfig with
      | some m => if m ≠ [] then [("meal_config", .obj m)] else []
      | none => [])
  ++ (match options.storeSlugs with
      | some l => if l ≠ [] then [("store_slugs", .arrStr l)] else []
      | none => [])
  ++ (match options.excludeAllergens with
      | some l => if l ≠ [] then [("exclude_allergens", .arrStr l)] else []
      | none => [])

/-- The keys `createPlan` can ever place in the body. -/
def allowedPlanKeys : List String :=
  ["target_servings", "postal_code", "time_limit_seconds", "batch_penalty",
   "meal_config", "store_slugs", "exclude_allergens"]

/-- A concrete `options` value of the shape `handlePlan` builds when the user
has selected required recipes and a single-file menu (App.jsx 207-216). -/
def demoHandlePlanOptions : PlanCallOptions :=
  { timeLimitSeconds := some 10
    batchPenalty := some (1 / 10000)
    mealConfig := some [("entree", 1)]
    storeSlugs := none
    excludeAllergens := none
    includeEveryRecipeIds := some [3, 4]
    requiredRecipeIds := some [7] }

end Frontend

namespace Core

/-! ## UnitConverter (spec section 4.1; source `sku_size_converter.py` /
`unit_normalizer.py` not present under the frontend tree) -/

/-- Modelled from the spec: the recognized unit families of the missing
`UnitConverter` (mass, volume, count). -/
inductive UnitFamily where
  | mass
  | volume
  | count
deriving DecidableEq

/-- Modelled from the spec: the recognized units of the missing
`UnitConverter` with their family and their fixed factor to the family's
base unit (g, ml, count); standard ratios (1 kg = 1000 g, 1 lb = 453.59237 g,
1 oz = 28.349523125 g, 1 l = 1000 ml, 1 tsp = 4.92892159375 ml,
1 tbsp = 14.78676478125 ml, 1 cup = 236.5882365 ml,
1 fl oz = 29.5735295625 ml). -/
def unitTable : List (String × UnitFamily × ℚ) :=
  [("g", .mass, 1), ("kg", .mass, 1000),
   ("oz", .mass, 28349523125 / 1000000000), ("lb", .mass, 45359237 / 100000),
   ("ml", .volume, 1), ("l", .volume, 1000),
   ("tsp", .volume, 492892159375 / 100000000000),
   ("tbsp", .volume, 1478676478125 / 100000000000),
   ("cup", .volume, 2365882365 / 10000000),
   ("fl oz", .volume, 295735295625 / 10000000000),
   ("each", .count, 1), ("unit", .count, 1)]

/-- Modelled from the spec: the family of a unit string, `none` when the
unit is not recognized. -/
def unitFamily (u : String) : Option UnitFamily :=
  (unitTable.find? (fun e => e.1 == u)).map (fun e => e.2.1)

/-- Modelled from the spec: the fixed multiplicative factor from a
recognized unit to its family's base unit. -/
def toBaseFactor (u : String) : ℚ :=
  ((unitTable.find? (fun e => e.1 == u)).map (fun e => e.2.2)).getD 1

/-- Modelled from the spec: the failure of the missing `UnitConverter`. -/
inductive ConvErr where
  | unitMismatch
deriving DecidableEq

/-- Modelled from the spec (section 4.1 contract of the missing
`UnitConverter`): same-family conversion multiplies by the fixed factors;
cross-family conversion uses the per-ingredient hint (base units per source
unit) when present and otherwise fails with `UnitMismatch`; unrecognized
units fail with `UnitMismatch`. -/
def convert (q : ℚ) (fromUnit baseUnit : String) (hint : Option ℚ) : Except ConvErr ℚ :=
  match unitFamily fromUnit, unitFamily baseUnit with
  | some f, some b =>
      if f = b then .ok (q * (toBaseFactor fromUnit / toBaseFactor baseUnit))
      else
        match hint with
        | some h => .ok (q * h)
        | none => .error .unitMismatch
  | _, _ => .error .unitMismatch

/-- Modelled from the spec (section 9 design note, describing the missing
source implementation): the source's fallback treats a cross-family quantity
with no hint as directly equal in magnitude instead of failing — flagged in
the spec as a likely latent bug. -/
def convertSource (q : ℚ) (fromUnit baseUnit : String) (hint : Option ℚ) : Except ConvErr ℚ :=
  match unitFamily fromUnit, unitFamily baseUnit with
  | some f, some b =>
      if f = b then .ok (q * (toBaseFactor fromUnit / toBaseFactor baseUnit))
      else
        match hint with
        | some h => .ok (q * h)
        | none => .ok q
  | _, _ => .error .unitMismatch

/-! ## Data model (spec sections 3 and 6) -/

/-- Modelled from the spec: one required-ingredient entry of a recipe. -/
structure IngredientReq where
  ingredient_id : Nat
  quantity : ℚ
  unit : String
deriving DecidableEq

/-- Modelled from the spec: a recipe catalog entry. -/
structure Recipe where
  id : Nat
  name : String
  servings : ℚ
  meal_type : String
  allergens : List String
  ingredients : List IngredientReq
deriving DecidableEq

/-- Modelled from the spec: an ingredient catalog entry. -/
structure Ingredient where
  id : Nat
  canonical_name : String
  base_unit : String
  base_unit_qty_hint : Option ℚ
deriving DecidableEq

/-- Modelled from the spec: a SKU catalog entry; `expires_at` is a timestamp
compared against the snapshot time. -/
structure Sku where
  id : Nat
  ingredient_id : Nat
  name : String
  brand : String
  retailer : String
  price : ℚ
  size_quantity : ℚ
  size_unit : String
  expires_at : Option ℚ
deriving DecidableEq

/-- Modelled from the spec: the immutable catalog snapshot a solve operates on. -/
structure Catalog where
  recipes : List Recipe
  ingredients : List Ingredient
  skus : List Sku
  snapshotTime : ℚ
deriving DecidableEq

/-- Modelled from the spec: a plan request (spec section 6). -/
structure PlanRequest where
  target_servings : ℚ
  meal_config : List (String × ℚ)
  required_recipe_ids : List Nat
  include_every_recipe_ids : List Nat
  store_slugs : Option (List String)
  exclude_allergens : List String
  time_limit_seconds : ℚ
  batch_penalty : ℚ
deriving DecidableEq

def findIngredient (cat : Catalog) (iid : Nat) : Option Ingredient :=
  cat.ingredients.find? (fun i => i.id == iid)

/-- Display name of an ingredient (the design notes record `"unknown"` as the
fallback for an empty match). -/
def ingredientName (cat : Catalog) (iid : Nat) : String :=
  ((findIngredient cat iid).map (fun i => i.canonical_name)).getD "unknown"

def ingredientHint (cat : Catalog) (iid : Nat) : Option ℚ :=
  (findIngredient cat iid).bind (fun i => i.base_unit_qty_hint)

/-- Base unit of an ingredient (the design notes record `"count"` as the
fallback for an invalid base unit). -/
def ingredientBaseUnit (cat : Catalog) (iid : Nat) : String :=
  ((findIngredient cat iid).map (fun i => i.base_unit)).getD "count"

/-- Modelled from the spec (section 4.3): a recipe requirement pre-converted
to the ingredient's base unit. -/
def reqBase (cat : Catalog) (e : IngredientReq) : Except ConvErr ℚ :=
  convert e.quantity e.unit (ingredientBaseUnit cat e.ingredient_id) (ingredientHint cat e.ingredient_id)

def reqBaseQty (cat : Catalog) (e : IngredientReq) : ℚ :=
  ((reqBase cat e).toOption).getD 0

/-- Modelled from the spec (section 4.1): the base-unit quantity one package
of a SKU provides. -/
def skuYield (cat : Catalog) (s : Sku) : Except ConvErr ℚ :=
  convert s.size_quantity s.size_unit (ingredientBaseUnit cat s.ingredient_id)
    (ingredientHint cat s.ingredient_id)

def skuYieldQ (cat : Catalog) (s : Sku) : ℚ :=
  ((skuYield cat s).toOption).getD 0

/-! ## FeasibilityFilter (spec section 4.2) and candidate set -/

/-- Modelled from the spec (sections 3, 4.2, 4.4): a SKU is eligible while
unexpired with positive price and size, its package size is convertible to
its ingredient's base unit, and — when the request carries a retailer
allow-list — its retailer is listed. -/
def skuEligible (cat : Catalog) (req : PlanRequest) (s : Sku) : Bool :=
  (match s.expires_at with
   | some t => decide (cat.snapshotTime < t)
   | none => true) &&
  decide (0 < s.price) && decide (0 < s.size_quantity) &&
  (skuYield cat s).toOption.isSome &&
  (match req.store_slugs with
   | some allow => allow.contains s.retailer
   | none => true)

def eligibleSkusFor (cat : Catalog) (req : PlanRequest) (iid : Nat) : List Sku :=
  cat.skus.filter (fun s => s.ingredient_id == iid && skuEligible cat req s)

/-- Modelled from the spec (section 4.2): an ingredient is unavailable iff
its eligible SKU set is empty. -/
def ingredientUnavailable (cat : Catalog) (req : PlanRequest) (iid : Nat) : Bool :=
  (eligibleSkusFor cat req iid).isEmpty

/-- Modelled from the spec (sections 4.2, 4.3, 7): a requirement entry blocks
its recipe when its own conversion fails or its ingredient is unavailable. -/
def entryBlocked (cat : Catalog) (req : PlanRequest) (e : IngredientReq) : Bool :=
  !(reqBase cat e).toOption.isSome || ingredientUnavailable cat req e.ingredient_id

/-- Ingredient ids blocking a recipe (empty iff the recipe is selectable). -/
def recipeBlockingIngredients (cat : Catalog) (req : PlanRequest) (r : Recipe) : List Nat :=
  (r.ingredients.filter (entryBlocked cat req)).map (fun e => e.ingredient_id)

def recipeAvailable (cat : Catalog) (req : PlanRequest) (r : Recipe) : Bool :=
  (recipeBlockingIngredients cat req r).isEmpty

/-- Modelled from the spec (section 4.4): the solver's selectable recipes —
available recipes not carrying an excluded allergen (allergen-excluded
recipes are removed from the candidate set before solving). -/
def candidateRecipes (cat : Catalog) (req : PlanRequest) : List Recipe :=
  cat.recipes.filter (fun r =>
    recipeAvailable cat req r && r.allergens.all (fun a => !req.exclude_allergens.contains a))

/-- Ingredient ids required by at least one candidate recipe. -/
def neededIngredientIds (cat : Catalog) (req : PlanRequest) : List Nat :=
  (((candidateRecipes cat req).flatMap (fun r => r.ingredients)).map
    (fun e => e.ingredient_id)).dedup

/-- The eligible (ingredient, SKU) purchase variables, flattened. -/
def purchasableSkus (cat : Catalog) (req : PlanRequest) : List Sku :=
  (neededIngredientIds cat req).flatMap (eligibleSkusFor cat req)

/-! ## ShoppingListBuilder / demand and supply (spec section 4.3) -/

/-- Per-batch base-unit demand of recipe `r` for ingredient `iid`. -/
def recipeDemandFor (cat : Catalog) (r : Recipe) (iid : Nat) : ℚ :=
  ((r.ingredients.filter (fun e => e.ingredient_id == iid)).map (reqBaseQty cat)).sum

/-- Modelled from the spec (section 4.3): total base-unit demand for `iid`
over recipes at their batch counts. -/
def demand (cat : Catalog) (rbs : List (Recipe × Nat)) (iid : Nat) : ℚ :=
  (rbs.map (fun rb => (rb.2 : ℚ) * recipeDemandFor cat rb.1 iid)).sum

/-- Purchased base-unit supply of `iid` under per-SKU unit counts. -/
def supply (cat : Catalog) (sbs : List (Sku × Nat)) (iid : Nat) : ℚ :=
  ((sbs.filter (fun b => b.1.ingredient_id == iid)).map
    (fun b => (b.2 : ℚ) * skuYieldQ cat b.1)).sum

/-! ## PlanSolver (spec section 4.4) -/

/-- Modelled from the spec (section 4.4 constraints): demand coverage for
every needed ingredient, the serving target, meal-type minimum batch counts,
and forced inclusion (batches at least 1) of every required or
force-included recipe id present in the candidate set. -/
def satisfies (cat : Catalog) (req : PlanRequest)
    (rbs : List (Recipe × Nat)) (sbs : List (Sku × Nat)) : Bool :=
  (neededIngredientIds cat req).all
    (fun iid => decide (demand cat rbs iid ≤ supply cat sbs iid)) &&
  decide (req.target_servings ≤ (rbs.map (fun rb => (rb.2 : ℚ) * rb.1.servings)).sum) &&
  req.meal_config.all (fun mc =>
    decide (mc.2 ≤ ((rbs.filter (fun rb => rb.1.meal_type == mc.1)).map
      (fun rb => (rb.2 : ℚ))).sum)) &&
  (req.required_recipe_ids ++ req.include_every_recipe_ids).all (fun rid =>
    (candidateRecipes cat req).all (fun r => !(r.id == rid)) ||
    rbs.any (fun rb => rb.1.id == rid && decide (1 ≤ rb.2)))

/-- Modelled from the spec (section 4.4 objective): purchase cost plus the
batch-penalty tie-break, approximated as a small per-unit-purchased penalty. -/
def cost (req : PlanRequest) (sbs : List (Sku × Nat)) : ℚ :=
  (sbs.map (fun b => (b.2 : ℚ) * b.1.price)).sum +
    req.batch_penalty * (sbs.map (fun b => (b.2 : ℚ))).sum

/-- The model's big-M bound on any recipe's batch count: enough batches to
reach the serving target and every meal-type minimum. -/
def batchBound (req : PlanRequest) : Nat :=
  (Nat.ceil req.target_servings) + (req.meal_config.map (fun mc => Nat.ceil mc.2)).sum + 1

/-- Bound on units purchased of one SKU: enough packages to cover the whole
catalog's demand at maximal batch counts. -/
def unitBound (cat : Catalog) (req : PlanRequest) (s : Sku) : Nat :=
  let dmax : ℚ := (batchBound req : ℚ) *
    ((candidateRecipes cat req).map (fun r => recipeDemandFor cat r s.ingredient_id)).sum
  let y := skuYieldQ cat s
  if y ≤ 0 then 0 else Nat.ceil (dmax / y) + 1

/-- All length-matching vectors whose entries respect per-position bounds. -/
def tuplesB : List Nat → List (List Nat)
  | [] => [[]]
  | b :: bs => (List.range (b + 1)).flatMap (fun x => (tuplesB bs).map (fun v => x :: v))

/-- The enumerated decision space: a batch count per candidate recipe and a
unit count per purchasable SKU. -/
def assignments (cat : Catalog) (req : PlanRequest) : List (List Nat × List Nat) :=
  (tuplesB ((candidateRecipes cat req).map (fun _ => batchBound req))).flatMap
    (fun bs => (tuplesB ((purchasableSkus cat req).map (unitBound cat req))).map
      (fun us => (bs, us)))

def zipRB (cat : Catalog) (req : PlanRequest) (bs : List Nat) : List (Recipe × Nat) :=
  (candidateRecipes cat req).zip bs

def zipSB (cat : Catalog) (req : PlanRequest) (us : List Nat) : List (Sku × Nat) :=
  (purchasableSkus cat req).zip us

def assignCost (cat : Catalog) (req : PlanRequest) (a : List Nat × List Nat) : ℚ :=
  cost req (zipSB cat req a.2)

/-- The feasible assignments. -/
def satisfyingAssigns (cat : Catalog) (req : PlanRequest) : List (List Nat × List Nat) :=
  (assignments cat req).filter
    (fun a => satisfies cat req (zipRB cat req a.1) (zipSB cat req a.2))

/-- Modelled from the spec: pick a cost-minimal element (the MIP solver's
choice among optima is arbitrary; the enumeration order stands in for it). -/
def pickBest (cat : Catalog) (req : PlanRequest) :
    List (List Nat × List Nat) → Option (List Nat × List Nat)
  | [] => none
  | h :: t => some (t.foldl
      (fun acc x => if assignCost cat req x < assignCost cat req acc then x else acc) h)

/-! ## PlanResult and PlanAssembler (spec sections 3, 4.5, 7) -/

inductive PlanStatus where
  | Optimal
  | Infeasible
deriving DecidableEq

/-- Modelled from the spec (section 4.4 priority list): the structured
infeasibility reason; `renderReason` is its human-readable form. -/
inductive InfeasibleReason where
  | requiredRecipeUnavailable (recipeName : String) (ingredientName : String)
  | mealTypeShortfall (mealType : String)
  | noFeasibleCombination
deriving DecidableEq

def renderReason : InfeasibleReason → String
  | .requiredRecipeUnavailable rname iname =>
      "Required recipe " ++ rname ++ " needs unavailable ingredient " ++ iname
  | .mealTypeShortfall t => "No available recipes of meal type " ++ t
  | .noFeasibleCombination => "No feasible combination of recipes and SKUs"

structure RecipeLine where
  recipe_id : Nat
  name : String
  batches : Nat
  servings_per_batch : ℚ
  total_servings : ℚ
deriving DecidableEq

structure ShoppingLine where
  ingredient_id : Nat
  ingredient : String
  quantity : ℚ
  unit : String
deriving DecidableEq

structure PurchaseLine where
  sku_id : Nat
  ingredient_id : Nat
  name : String
  brand : String
  retailer : String
  unit_price : ℚ
  quantity : Nat
  base_unit_yield : ℚ
deriving DecidableEq

/-- Modelled from the spec (sections 3, 4.5): the fully-formed plan result. -/
structure PlanResult where
  status : PlanStatus
  objective : ℚ
  recipe_details : List RecipeLine
  shopping_list : List ShoppingLine
  purchases : List PurchaseLine
  reason : Option InfeasibleReason
deriving DecidableEq

/-- Modelled from the spec (section 7): a request rejected before the solver
is invoked. -/
inductive PlanError where
  | invalidRequest (msg : String)
deriving DecidableEq

instance {e a : Type} [DecidableEq e] [DecidableEq a] : DecidableEq (Except e a) := fun x y =>
  match x, y with
  | .ok v, .ok w =>
      if h : v = w then .isTrue (congrArg Except.ok h)
      else .isFalse (fun hc => h (Except.ok.inj hc))
  | .error v, .error w =>
      if h : v = w then .isTrue (congrArg Except.error h)
      else .isFalse (fun hc => h (Except.error.inj hc))
  | .ok _, .error _ => .isFalse (fun hc => Except.noConfusion hc)
  | .error _, .ok _ => .isFalse (fun hc => Except.noConfusion hc)

/-- Modelled from the spec (section 4.5): the explicit empty-result shape for
a failed solve. -/
def emptyInfeasible (r : InfeasibleReason) : PlanResult :=
  { status := .Infeasible, objective := 0, recipe_details := [],
    shopping_list := [], purchases := [], reason := some r }

def mkRecipeLine (rb : Recipe × Nat) : RecipeLine :=
  { recipe_id := rb.1.id, name := rb.1.name, batches := rb.2,
    servings_per_batch := rb.1.servings,
    total_servings := (rb.2 : ℚ) * rb.1.servings }

def mkRecipeLines (rbs : List (Recipe × Nat)) : List RecipeLine :=
  (rbs.filter (fun rb => decide (1 ≤ rb.2))).map mkRecipeLine

def mkPurchaseLine (cat : Catalog) (b : Sku × Nat) : PurchaseLine :=
  { sku_id := b.1.id, ingredient_id := b.1.ingredient_id, name := b.1.name,
    brand := b.1.brand, retailer := b.1.retailer, unit_price := b.1.price,
    quantity := b.2, base_unit_yield := skuYieldQ cat b.1 }

def mkPurchases (cat : Catalog) (sbs : List (Sku × Nat)) : List PurchaseLine :=
  (sbs.filter (fun b => decide (1 ≤ b.2))).map (mkPurchaseLine cat)

def mkShopping (cat : Catalog) (req : PlanRequest) (rbs : List (Recipe × Nat))
    (sbs : List (Sku × Nat)) : List ShoppingLine :=
  (neededIngredientIds cat req).filterMap (fun iid =>
    if demand cat rbs iid ≠ 0 then
      some { ingredient_id := iid, ingredient := ingredientName cat iid,
             quantity := supply cat sbs iid, unit := ingredientBaseUnit cat iid }
    else none)

/-- Modelled from the spec (section 4.5): map solved variable values back to
the domain result. -/
def assemble (cat : Catalog) (req : PlanRequest) (rbs : List (Recipe × Nat))
    (sbs : List (Sku × Nat)) : PlanResult :=
  { status := .Optimal
    objective := cost req sbs
    recipe_details := mkRecipeLines rbs
    shopping_list := mkShopping cat req rbs sbs
    purchases := mkPurchases cat sbs
    reason := none }

/-- Modelled from the spec (section 4.4 reason priority 1): the first
required or force-included recipe blocked by an unavailable or unconvertible
ingredient, with that blocking ingredient. -/
def firstBlockedRequired (cat : Catalog) (req : PlanRequest) : Option (Recipe × Nat) :=
  (req.required_recipe_ids ++ req.include_every_recipe_ids).findSome? (fun rid =>
    (cat.recipes.find? (fun rc => rc.id == rid)).bind (fun rc =>
      match recipeBlockingIngredients cat req rc with
      | [] => none
      | iid :: _ => some (rc, iid)))

/-- Modelled from the spec (section 4.4 reason priority 2): a meal type whose
positive minimum cannot be met because no candidate recipe has that type. -/
def firstBlockedMealType (cat : Catalog) (req : PlanRequest) : Option (String × ℚ) :=
  req.meal_config.find? (fun mc =>
    decide (0 < mc.2) && (candidateRecipes cat req).all (fun r => !(r.meal_type == mc.1)))

/-- Modelled from the spec (sections 4.4, 4.5, 6, 7): `solvePlan`. Validates
the request (fail-fast `InvalidRequest`), reports the most specific
infeasibility reason in priority order, and otherwise returns a cost-minimal
feasible assignment, assembled into a `PlanResult`. The `seed` rotates the
candidate-assignment order, standing in for the MIP solver's arbitrary
choice among equal-cost optima. -/
def solvePlan (cat : Catalog) (req : PlanRequest) (seed : Nat) :
    Except PlanError PlanResult :=
  if req.target_servings ≤ 0 then
    .error (.invalidRequest "target_servings must be positive")
  else
    match firstBlockedRequired cat req with
    | some (rc, iid) =>
        .ok (emptyInfeasible (.requiredRecipeUnavailable rc.name (ingredientName cat iid)))
    | none =>
        match firstBlockedMealType cat req with
        | some mc => .ok (emptyInfeasible (.mealTypeShortfall mc.1))
        | none =>
            match pickBest cat req ((satisfyingAssigns cat req).rotate seed) with
            | some a => .ok (assemble cat req (zipRB cat req a.1) (zipSB cat req a.2))
            | none => .ok (emptyInfeasible .noFeasibleCombination)

/-- Purchased base-unit supply of an ingredient as reported in a result. -/
def resultSupply (r : PlanResult) (iid : Nat) : ℚ :=
  ((r.purchases.filter (fun p => p.ingredient_id == iid)).map
    (fun p => (p.quantity : ℚ) * p.base_unit_yield)).sum

/-- Total demand of an ingredient from the chosen recipes as reported in a
result, looking each chosen recipe up in the catalog. -/
def resultDemand (cat : Catalog) (r : PlanResult) (iid : Nat) : ℚ :=
  (r.recipe_details.map (fun d => (d.batches : ℚ) *
    (((cat.recipes.find? (fun rc => rc.id == d.recipe_id)).map
      (fun rc => recipeDemandFor cat rc iid)).getD 0))).sum

/-- Objective value of a solve outcome (`none` for a rejected request). -/
def objectiveOf : Except PlanError PlanResult → Option ℚ
  | .ok r => some r.objective
  | .error _ => none

/-- Recipe ids with at least one well-formedness requirement: distinct ids. -/
def recipeIdsNodup (cat : Catalog) : Prop :=
  (cat.recipes.map (fun r => r.id)).Nodup

/-- Positive base-unit-quantity hints (a hint is an average item weight or
density, positive by nature). -/
def hintsPositive (cat : Catalog) : Prop :=
  ∀ i ∈ cat.ingredients, ∀ h, i.base_unit_qty_hint = some h → 0 < h

end Core

namespace Core

/-! ## Witness fixture: the one-recipe, one-SKU catalog of spec section 8's
Scenario A (scaled to small numbers so kernel evaluation stays shallow). -/

def demoIng : Ingredient := ⟨1, "flour", "g", none⟩

def demoRecipe : Recipe := ⟨1, "bread", 4, "entree", [], [⟨1, 2, "g"⟩]⟩

def demoSku : Sku := ⟨1, 1, "Flour 5g", "Acme", "storeA", 3, 5, "g", none⟩

def demoCat : Catalog := ⟨[demoRecipe], [demoIng], [demoSku], 0⟩

def demoReq : PlanRequest := ⟨4, [], [], [], none, [], 10, 1/2⟩

/-- Variant of `demoReq` that requires recipe 1. -/
def demoReqRequired : PlanRequest := ⟨4, [], [1], [], none, [], 10, 1/2⟩

/-- Variant of `demoCat` whose only SKU is expired, making ingredient 1
unavailable. -/
def demoCatExpired : Catalog :=
  ⟨[demoRecipe], [demoIng], [⟨1, 1, "Flour 5g", "Acme", "storeA", 3, 5, "g", some (-1)⟩], 0⟩

/-- Request with a nonpositive serving target. -/
def demoReqZero : PlanRequest := ⟨0, [], [], [], none, [], 10, 1/2⟩

/-- The plan `solvePlan` returns on `demoCat`/`demoReq` (and on
`demoReqRequired`): one batch of the recipe, one package, objective
3 + 1/2 penalty. -/
def demoResult : PlanResult :=
  { status := .Optimal
    objective := 7 / 2
    recipe_details := [⟨1, "bread", 1, 4, 4⟩]
    shopping_list := [⟨1, "flour", 5, "g"⟩]
    purchases := [⟨1, 1, "Flour 5g", "Acme", "storeA", 3, 1, 5⟩]
    reason := none }

end Core

/-! # Theorems -/

namespace Frontend

theorem toNat_ofNat_valid {n : Nat} (h : n.isValidChar) : (Char.ofNat n).toNat = n := by
  unfold Char.ofNat
  rw [dif_pos h]
  rfl

theorem lowerChar_idem (c : Char) : lowerChar (lowerChar c) = lowerChar c := by
  unfold lowerChar
  by_cases h : 65 ≤ c.toNat ∧ c.toNat ≤ 90
  · rw [if_pos h]
    have hv : (c.toNat + 32).isValidChar := Or.inl (by omega)
    have ht : (Char.ofNat (c.toNat + 32)).toNat = c.toNat + 32 := toNat_ofNat_valid hv
    rw [if_neg]
    omega
  · rw [if_neg h, if_neg h]

theorem dropWhile_eq_self_of_all {p : Char → Bool} {l : List Char}
    (h : ∀ c ∈ l, p c = false) : l.dropWhile p = l := by
  cases l with
  | nil => rfl
  | cons a t =>
      rw [List.dropWhile_cons, if_neg]
      simp [h a (List.mem_cons_self a t)]

theorem jsTrim_eq_self_of_no_ws {l : List Char}
    (h : ∀ c ∈ l, isWsChar c = false) : jsTrim l = l := by
  unfold jsTrim
  rw [dropWhile_eq_self_of_all h]
  rw [dropWhile_eq_self_of_all (fun c hc => h c (List.mem_reverse.mp hc))]
  exact List.reverse_reverse l

theorem mem_jsTrim {l : List Char} {c : Char} (h : c ∈ jsTrim l) : c ∈ l := by
  unfold jsTrim at h
  have h1 := List.mem_reverse.mp h
  have h2 := (List.dropWhile_sublist _).mem h1
  have h3 := List.mem_reverse.mp h2
  exact (List.dropWhile_sublist _).mem h3

theorem mem_firstOf_not_delim {u : List Char} {c : Char} (h : c ∈ firstOf u) :
    isDelimChar c = false := by
  have h1 := mem_jsTrim h
  have h2 := List.mem_takeWhile_imp h1
  simpa using h2

theorem mem_firstOf_lower_fixed {u : List Char} {c : Char} (h : c ∈ firstOf u) :
    lowerChar c = c := by
  have h1 := mem_jsTrim h
  have h2 := (List.takeWhile_sublist _).mem h1
  rcases List.mem_map.mp h2 with ⟨d, _, rfl⟩
  exact lowerChar_idem d

theorem sanitizeUnitStr_canonical {r : List Char} (h : r ∈ canonicalUnits) :
    sanitizeUnitStr r = r := by
  simp only [canonicalUnits, List.mem_cons, List.not_mem_nil, or_false] at h
  rcases h with rfl | rfl | rfl | rfl | rfl | rfl <;> decide

theorem sanitizeUnitStr_of_clean {r : List Char}
    (hd : ∀ c ∈ r, isDelimChar c = false)
    (hl : ∀ c ∈ r, lowerChar c = c)
    (hnc : r ∉ canonicalUnits) (hne : r ≠ []) :
    sanitizeUnitStr r = r := by
  have hws : ∀ c ∈ r, isWsChar c = false := by
    intro c hc
    have h := hd c hc
    simp only [isDelimChar, Bool.or_eq_false_iff] at h
    exact h.1.1.1
  have h1 : jsTrim r = r := jsTrim_eq_self_of_no_ws hws
  have h2 : r.map lowerChar = r := by
    rw [List.map_congr_left hl]
    exact List.map_id' r
  have h3 : r.takeWhile (fun c => !isDelimChar c) = r :=
    List.takeWhile_eq_self_iff.mpr (fun c hc => by simp [hd c hc])
  have hfirst : firstOf r = r := by
    unfold firstOf
    rw [h1, h2, h3, h1]
  unfold sanitizeUnitStr
  rw [hfirst, if_neg hnc, if_neg hne]

theorem sanitizeUnitStr_idem (u : List Char) :
    sanitizeUnitStr (sanitizeUnitStr u) = sanitizeUnitStr u := by
  by_cases h1 : firstOf u ∈ canonicalUnits
  · have hv : sanitizeUnitStr u = firstOf u := by
      unfold sanitizeUnitStr
      rw [if_pos h1]
    rw [hv]
    exact sanitizeUnitStr_canonical h1
  · by_cases h2 : firstOf u = []
    · have hv : sanitizeUnitStr u = "units".toList := by
        unfold sanitizeUnitStr
        rw [if_neg h1, if_pos h2]
      rw [hv]
      decide
    · have hv : sanitizeUnitStr u = firstOf u := by
        unfold sanitizeUnitStr
        rw [if_neg h1, if_neg h2]
      rw [hv]
      exact sanitizeUnitStr_of_clean
        (fun c hc => mem_firstOf_not_delim hc)
        (fun c hc => mem_firstOf_lower_fixed hc) h1 h2

theorem lpStep_nonzero {o : LpOptions} (ho : o.timeLimitSeconds ≠ 0 ∧ o.batchPenalty ≠ 0)
    (e : LpEvent) : (lpStep o e).timeLimitSeconds ≠ 0 ∧ (lpStep o e).batchPenalty ≠ 0 := by
  cases e with
  | setTimeLimit p =>
      refine ⟨?_, ho.2⟩
      cases p with
      | nan => norm_num [lpStep, jsNumOrDefault]
      | num q =>
          simp only [lpStep, jsNumOrDefault]
          split
          · norm_num
          · assumption
  | setBatchPenalty p =>
      refine ⟨ho.1, ?_⟩
      cases p with
      | nan => norm_num [lpStep, jsNumOrDefault]
      | num q =>
          simp only [lpStep, jsNumOrDefault]
          split
          · norm_num
          · assumption

theorem lpRun_aux (evs : List LpEvent) :
    ∀ o : LpOptions, o.timeLimitSeconds ≠ 0 ∧ o.batchPenalty ≠ 0 →
      (evs.foldl lpStep o).timeLimitSeconds ≠ 0 ∧ (evs.foldl lpStep o).batchPenalty ≠ 0 := by
  induction evs with
  | nil => exact fun o ho => ho
  | cons e t ih => exact fun o ho => ih (lpStep o e) (lpStep_nonzero ho e)

end Frontend

/-- C9: the LP-options state always holds a nonzero batch penalty and time
limit: the initial state is `{timeLimitSeconds: 10, batchPenalty: 0.0001}`,
the time-limit handler stores `10` on a parse of `0` or `NaN`, the
batch-penalty handler stores `0.0001` on a parse of `0` or `NaN`, and no
sequence of UI edits reaches a state with either field zero. -/
theorem c9_lpOptions_never_zero :
    Frontend.initialLpOptions = ⟨10, 1 / 10000⟩ ∧
    (∀ o : Frontend.LpOptions, (Frontend.lpStep o (.setTimeLimit .nan)).timeLimitSeconds = 10 ∧
      (Frontend.lpStep o (.setTimeLimit (.num 0))).timeLimitSeconds = 10) ∧
    (∀ o : Frontend.LpOptions, (Frontend.lpStep o (.setBatchPenalty .nan)).batchPenalty = 1 / 10000 ∧
      (Frontend.lpStep o (.setBatchPenalty (.num 0))).batchPenalty = 1 / 10000) ∧
    (∀ evs : List Frontend.LpEvent,
      (Frontend.lpRun evs).timeLimitSeconds ≠ 0 ∧ (Frontend.lpRun evs).batchPenalty ≠ 0) := by
  refine ⟨rfl, fun o => ⟨rfl, by norm_num [Frontend.lpStep, Frontend.jsNumOrDefault]⟩,
    fun o => ⟨rfl, by norm_num [Frontend.lpStep, Frontend.jsNumOrDefault]⟩, fun evs => ?_⟩
  exact Frontend.lpRun_aux evs Frontend.initialLpOptions (by norm_num [Frontend.initialLpOptions])

/-- C10: `sanitizeUnit` is total and idempotent: every `null` or non-string
input yields `""`; a string input yields the first delimiter-free token of the
trimmed lowercased input when that token is canonical
(`g`/`ml`/`count`/`tbsp`/`tsp`/`units`), otherwise the token itself when
non-empty, otherwise `"units"`; and applying `sanitizeUnit` twice to a string
equals applying it once. -/
theorem c10_sanitizeUnit_total_idem :
    (Frontend.sanitizeUnit .nullOrUndef = [] ∧ Frontend.sanitizeUnit .nonString = []) ∧
    (∀ s : List Char, Frontend.sanitizeUnit (.str s) =
      (if Frontend.firstOf s ∈ Frontend.canonicalUnits then Frontend.firstOf s
       else if Frontend.firstOf s = [] then "units".toList else Frontend.firstOf s)) ∧
    (∀ s : List Char,
      Frontend.sanitizeUnit (.str (Frontend.sanitizeUnit (.str s))) =
        Frontend.sanitizeUnit (.str s)) :=
  ⟨⟨rfl, rfl⟩, fun _ => rfl, Frontend.sanitizeUnitStr_idem⟩

/-- C3: for every combination of arguments, the body `createPlan` sends to
`POST /api/plan` contains only keys from `{target_servings, postal_code,
time_limit_seconds, batch_penalty, meal_config, store_slugs,
exclude_allergens}`; in particular it never contains `required_recipe_ids` or
`include_every_recipe_ids`, even when the caller supplies
`options.requiredRecipeIds` or `options.includeEveryRecipeIds` as
`handlePlan` does, so those selections are dropped from the outgoing request. -/
theorem c3_createPlan_drops_recipe_ids (ts : ℚ) (pc : Option String)
    (opts : Frontend.PlanCallOptions) :
    (∀ k ∈ (Frontend.createPlanBody ts pc opts).map Prod.fst, k ∈ Frontend.allowedPlanKeys) ∧
    "required_recipe_ids" ∉ (Frontend.createPlanBody ts pc opts).map Prod.fst ∧
    "include_every_recipe_ids" ∉ (Frontend.createPlanBody ts pc opts).map Prod.fst := by
  have hsub : ∀ k ∈ (Frontend.createPlanBody ts pc opts).map Prod.fst,
      k ∈ Frontend.allowedPlanKeys := by
    obtain ⟨tl, bp, mc, ss, ea, ie, rr⟩ := opts
    rcases pc with _ | p <;> rcases tl with _ | t <;> rcases bp with _ | b <;>
      rcases mc with _ | m <;> rcases ss with _ | s <;> rcases ea with _ | e <;>
      simp only [Frontend.createPlanBody] <;>
      (try split_ifs) <;>
      simp only [List.map_append, List.map_cons, List.map_nil] <;>
      decide
  refine ⟨hsub, fun hmem => ?_, fun hmem => ?_⟩
  · have := hsub _ hmem
    simp [Frontend.allowedPlanKeys] at this
  · have := hsub _ hmem
    simp [Frontend.allowedPlanKeys] at this

/-- Witness for C3 at a concrete call: the options `handlePlan` builds with a
required-recipe selection still produce a body without the two recipe-id keys. -/
theorem c3_createPlan_drops_recipe_ids_witness :
    "required_recipe_ids" ∉
      (Frontend.createPlanBody 4 (some "10001") Frontend.demoHandlePlanOptions).map Prod.fst :=
  (c3_createPlan_drops_recipe_ids 4 (some "10001") Frontend.demoHandlePlanOptions).2.1

namespace Core

theorem unitFamily_mem {u : String} {f : UnitFamily} (h : unitFamily u = some f) :
    ∃ e ∈ unitTable, e.1 = u ∧ e.2.1 = f ∧ toBaseFactor u = e.2.2 := by
  unfold unitFamily at h
  cases hfind : unitTable.find? (fun e => e.1 == u) with
  | none => rw [hfind] at h; simp at h
  | some e =>
      rw [hfind] at h
      simp only [Option.map_some', Option.some_inj] at h
      refine ⟨e, List.mem_of_find?_eq_some hfind, ?_, h, ?_⟩
      · simpa using List.find?_some hfind
      · unfold toBaseFactor
        rw [hfind]
        rfl

theorem toBaseFactor_pos {u : String} {f : UnitFamily} (h : unitFamily u = some f) :
    0 < toBaseFactor u := by
  obtain ⟨e, hmem, -, -, hfac⟩ := unitFamily_mem h
  rw [hfac]
  have hall : ∀ e ∈ unitTable, (0 : ℚ) < e.2.2 := by
    intro e he
    simp only [unitTable, List.mem_cons, List.not_mem_nil, or_false] at he
    rcases he with rfl | rfl | rfl | rfl | rfl | rfl | rfl | rfl | rfl | rfl | rfl | rfl <;>
      norm_num
  exact hall e hmem

end Core

/-- C4 (code bug): at the failing input — 2 "each" of an ingredient whose
base unit is grams, with no per-ingredient hint — the source implementation's
fallback (`convertSource`, section 9 design note) passes the magnitude
through as 2 g instead of failing, while the spec's stated contract
(`convert`, section 4.1) fails with `UnitMismatch` as the claim requires.
The spec itself flags the source fallback as a likely latent bug. -/
theorem c4_crossFamily_no_hint_eval :
    Core.convertSource 2 "each" "g" none = .ok 2 ∧
    Core.convert 2 "each" "g" none = .error .unitMismatch :=
  ⟨by with_unfolding_all rfl, by with_unfolding_all rfl⟩

/-- C5: for units of the same family (mass g/kg/oz/lb, volume
ml/l/tsp/tbsp/cup/fl oz, count each/unit), `convert` multiplies by the fixed
standard factor ratio, and converting from `u` to `v` and back returns the
original quantity exactly, in particular within tolerance 1e-6. -/
theorem c5_convert_same_family_roundtrip (q : ℚ) (u v : String) (h h' : Option ℚ)
    (f : Core.UnitFamily) (hu : Core.unitFamily u = some f)
    (hv : Core.unitFamily v = some f) :
    Core.convert q u v h = .ok (q * (Core.toBaseFactor u / Core.toBaseFactor v)) ∧
    (∀ x, Core.convert q u v h = .ok x → Core.convert x v u h' = .ok q) ∧
    (∀ x y, Core.convert q u v h = .ok x → Core.convert x v u h' = .ok y →
      |y - q| ≤ 1 / 1000000) ∧
    (∀ w ∈ ["g", "kg", "oz", "lb"], Core.unitFamily w = some .mass) ∧
    (∀ w ∈ ["ml", "l", "tsp", "tbsp", "cup", "fl oz"], Core.unitFamily w = some .volume) ∧
    (∀ w ∈ ["each", "unit"], Core.unitFamily w = some .count) := by
  have hfu := Core.toBaseFactor_pos hu
  have hfv := Core.toBaseFactor_pos hv
  have h1 : Core.convert q u v h = .ok (q * (Core.toBaseFactor u / Core.toBaseFactor v)) := by
    unfold Core.convert
    rw [hu, hv]
    simp
  have hu0 : Core.toBaseFactor u ≠ 0 := ne_of_gt hfu
  have hv0 : Core.toBaseFactor v ≠ 0 := ne_of_gt hfv
  have harith : q * (Core.toBaseFactor u / Core.toBaseFactor v) *
      (Core.toBaseFactor v / Core.toBaseFactor u) = q := by
    field_simp
  have hback : ∀ x, Core.convert q u v h = .ok x → Core.convert x v u h' = .ok q := by
    intro x hx
    rw [h1] at hx
    injection hx with hx
    subst hx
    unfold Core.convert
    rw [hu, hv]
    simp [harith]
  refine ⟨h1, hback, ?_, by decide, by decide, by decide⟩
  intro x y hx hy
  rw [hback x hx] at hy
  injection hy with hy
  subst hy
  simp only [sub_self, abs_zero]
  norm_num

/-- Witness for C5: 3 "each" converts to the count base and back exactly. -/
theorem c5_convert_same_family_roundtrip_witness :
    Core.convert 3 "each" "unit" none =
      .ok (3 * (Core.toBaseFactor "each" / Core.toBaseFactor "unit")) ∧
    Core.convert (3 * (Core.toBaseFactor "each" / Core.toBaseFactor "unit"))
      "unit" "each" none = .ok 3 :=
  have hc := c5_convert_same_family_roundtrip 3 "each" "unit" none none .count
    (by decide) (by decide)
  ⟨hc.1, hc.2.1 _ hc.1⟩

namespace Core

theorem foldl_choice_mem {α : Type} (f : α → α → α)
    (hf : ∀ a b, f a b = a ∨ f a b = b) :
    ∀ (t : List α) (x : α), t.foldl f x ∈ x :: t := by
  intro t
  induction t with
  | nil => intro x; simp
  | cons y s ih =>
      intro x
      simp only [List.foldl_cons]
      rcases hf x y with h | h <;> rw [h]
      · rcases List.mem_cons.mp (ih x) with h' | h'
        · exact List.mem_cons.mpr (Or.inl h')
        · exact List.mem_cons.mpr (Or.inr (List.mem_cons.mpr (Or.inr h')))
      · rcases List.mem_cons.mp (ih y) with h' | h'
        · exact List.mem_cons.mpr (Or.inr (List.mem_cons.mpr (Or.inl h')))
        · exact List.mem_cons.mpr (Or.inr (List.mem_cons.mpr (Or.inr h')))

theorem pickBest_mem {cat : Catalog} {req : PlanRequest}
    {l : List (List Nat × List Nat)} {a : List Nat × List Nat}
    (h : pickBest cat req l = some a) : a ∈ l := by
  cases l with
  | nil => exact absurd h (by simp [pickBest])
  | cons x t =>
      simp only [pickBest, Option.some_inj] at h
      subst h
      exact foldl_choice_mem _ (fun p q => by
        by_cases hc : assignCost cat req q < assignCost cat req p
        · exact Or.inr (if_pos hc)
        · exact Or.inl (if_neg hc)) t x

theorem foldl_pick_cost {α : Type} (c : α → ℚ) :
    ∀ (t : List α) (x : α),
      c (t.foldl (fun acc z => if c z < c acc then z else acc) x) =
        t.foldl (fun m z => min m (c z)) (c x) := by
  intro t
  induction t with
  | nil => intro x; rfl
  | cons y s ih =>
      intro x
      simp only [List.foldl_cons]
      rw [ih]
      congr 1
      by_cases hc : c y < c x
      · rw [if_pos hc]
        exact (min_eq_right (le_of_lt hc)).symm
      · rw [if_neg hc]
        exact (min_eq_left (le_of_not_lt hc)).symm

theorem pickBest_cost {cat : Catalog} {req : PlanRequest}
    {l : List (List Nat × List Nat)} {a : List Nat × List Nat}
    (h : pickBest cat req l = some a) :
    (l.map (assignCost cat req)).min? = some (assignCost cat req a) := by
  cases l with
  | nil => exact absurd h (by simp [pickBest])
  | cons x t =>
      simp only [pickBest, Option.some_inj] at h
      subst h
      have hdef : ((x :: t).map (assignCost cat req)).min? =
          some ((t.map (assignCost cat req)).foldl min (assignCost cat req x)) := rfl
      rw [hdef, List.foldl_map, ← foldl_pick_cost (assignCost cat req) t x]

theorem minQ_perm {l l' : List ℚ} (hp : l.Perm l') : l.min? = l'.min? := by
  haveI : Std.Antisymm (α := ℚ) (fun x y => x ≤ y) := ⟨fun h h' => le_antisymm h h'⟩
  have hiff : ∀ (a : ℚ) (xs : List ℚ), xs.min? = some a ↔ a ∈ xs ∧ ∀ b ∈ xs, a ≤ b :=
    fun a xs => List.min?_eq_some_iff (le_refl) (fun a b => min_choice a b)
      (fun a b c => le_min_iff)
  cases hl : l.min? with
  | none =>
      cases hl' : l'.min? with
      | none => rfl
      | some b =>
          have hb := ((hiff b l').mp hl').1
          have hbl : b ∈ l := hp.mem_iff.mpr hb
          cases hcl : l with
          | nil => simp [hcl] at hbl
          | cons z zs =>
              rw [hcl] at hl
              exact absurd hl (by simp [List.min?])
  | some a =>
      have ha := (hiff a l).mp hl
      cases hl' : l'.min? with
      | none =>
          have hal : a ∈ l' := hp.mem_iff.mp ha.1
          cases hcl : l' with
          | nil => simp [hcl] at hal
          | cons z zs =>
              rw [hcl] at hl'
              exact absurd hl' (by simp [List.min?])
      | some b =>
          have hb := (hiff b l').mp hl'
          have h1 : a ≤ b := ha.2 b (hp.mem_iff.mpr hb.1)
          have h2 : b ≤ a := hb.2 a (hp.mem_iff.mp ha.1)
          rw [le_antisymm h1 h2]

end Core

namespace Core

theorem solvePlan_ok_optimal {cat : Catalog} {req : PlanRequest} {seed : Nat}
    {r : PlanResult} (hok : solvePlan cat req seed = .ok r)
    (hopt : r.status = .Optimal) :
    ∃ a, pickBest cat req ((satisfyingAssigns cat req).rotate seed) = some a ∧
      r = assemble cat req (zipRB cat req a.1) (zipSB cat req a.2) := by
  unfold solvePlan at hok
  split at hok
  · exact Except.noConfusion hok
  · split at hok
    · injection hok with hok
      rw [← hok] at hopt
      exact absurd hopt (by simp [emptyInfeasible])
    · split at hok
      · injection hok with hok
        rw [← hok] at hopt
        exact absurd hopt (by simp [emptyInfeasible])
      · split at hok
        · injection hok with hok
          rename_i a ha
          exact ⟨a, ha, hok.symm⟩
        · injection hok with hok
          rw [← hok] at hopt
          exact absurd hopt (by simp [emptyInfeasible])

theorem mem_satisfyingAssigns {cat : Catalog} {req : PlanRequest}
    {a : List Nat × List Nat} (h : a ∈ satisfyingAssigns cat req) :
    satisfies cat req (zipRB cat req a.1) (zipSB cat req a.2) = true :=
  (List.mem_filter.mp h).2

theorem satisfies_unpack {cat : Catalog} {req : PlanRequest}
    {rbs : List (Recipe × Nat)} {sbs : List (Sku × Nat)}
    (h : satisfies cat req rbs sbs = true) :
    (∀ iid ∈ neededIngredientIds cat req,
      demand cat rbs iid ≤ supply cat sbs iid) ∧
    req.target_servings ≤ (rbs.map (fun rb => (rb.2 : ℚ) * rb.1.servings)).sum ∧
    (∀ mc ∈ req.meal_config,
      mc.2 ≤ ((rbs.filter (fun rb => rb.1.meal_type == mc.1)).map
        (fun rb => (rb.2 : ℚ))).sum) ∧
    (∀ rid ∈ req.required_recipe_ids ++ req.include_every_recipe_ids,
      (∃ rc ∈ candidateRecipes cat req, rc.id = rid) →
        ∃ rb ∈ rbs, rb.1.id = rid ∧ 1 ≤ rb.2) := by
  unfold satisfies at h
  simp only [Bool.and_eq_true, List.all_eq_true, List.any_eq_true,
    decide_eq_true_eq, Bool.or_eq_true, Bool.not_eq_true', beq_iff_eq,
    beq_eq_false_iff_ne, ne_eq] at h
  obtain ⟨⟨⟨h1, h2⟩, h3⟩, h4⟩ := h
  refine ⟨h1, h2, ?_, ?_⟩
  · intro mc hmc
    exact h3 mc hmc
  · rintro rid hrid ⟨rc, hrc, hrcid⟩
    rcases h4 rid hrid with hnone | ⟨rb, hrb, hid, hb⟩
    · exact absurd hrcid (hnone rc hrc)
    · exact ⟨rb, hrb, hid, hb⟩

theorem find?_id_of_nodup :
    ∀ (l : List Recipe), (l.map (fun r => r.id)).Nodup →
      ∀ {r : Recipe}, r ∈ l → l.find? (fun rc => rc.id == r.id) = some r := by
  intro l
  induction l with
  | nil =>
      intro _ r hr
      simp at hr
  | cons a t ih =>
      intro hnd r hr
      rw [List.map_cons, List.nodup_cons] at hnd
      by_cases hid : a.id = r.id
      · rw [List.find?_cons_of_pos _ (by simp [hid])]
        rcases List.mem_cons.mp hr with rfl | hrt
        · rfl
        · exact absurd (hid ▸ List.mem_map.mpr ⟨r, hrt, rfl⟩) hnd.1
      · rw [List.find?_cons_of_neg _ (by simp [hid])]
        rcases List.mem_cons.mp hr with rfl | hrt
        · exact absurd rfl hid
        · exact ih hnd.2 hrt

theorem find?_recipe_id {cat : Catalog} (hnd : recipeIdsNodup cat) {r : Recipe}
    (hr : r ∈ cat.recipes) :
    cat.recipes.find? (fun rc => rc.id == r.id) = some r :=
  find?_id_of_nodup cat.recipes hnd hr

end Core

namespace Core

theorem sum_filter_zero {α : Type} (P Q : α → Bool) (f : α → ℚ) :
    ∀ l : List α, (∀ b ∈ l, P b = false → f b = 0) →
      ((l.filter (fun b => Q b && P b)).map f).sum = ((l.filter Q).map f).sum := by
  intro l
  induction l with
  | nil => exact fun _ => rfl
  | cons a t ih =>
      intro hzero
      have ihz := ih (fun b hb => hzero b (List.mem_cons_of_mem a hb))
      have h0 : P a = false → f a = 0 := hzero a (List.mem_cons_self a t)
      cases hp : P a
      · cases hq : Q a
        · simp [List.filter_cons, hp, hq, ihz]
        · simp [List.filter_cons, hp, hq, ihz, h0 hp]
      · cases hq : Q a
        · simp [List.filter_cons, hp, hq, ihz]
        · simp [List.filter_cons, hp, hq, ihz]

theorem sum_map_filter_zero {α : Type} (P : α → Bool) (f : α → ℚ) :
    ∀ l : List α, (∀ b ∈ l, P b = false → f b = 0) →
      ((l.filter P).map f).sum = (l.map f).sum := by
  intro l
  induction l with
  | nil => exact fun _ => rfl
  | cons a t ih =>
      intro hzero
      have ihz := ih (fun b hb => hzero b (List.mem_cons_of_mem a hb))
      cases hp : P a
      · simp [List.filter_cons, hp, ihz, hzero a (List.mem_cons_self a t) hp]
      · simp [List.filter_cons, hp, ihz]

end Core

namespace Core

theorem purchases_supply_sum (cat : Catalog) (iid : Nat) (sbs : List (Sku × Nat)) :
    (((mkPurchases cat sbs).filter (fun p => p.ingredient_id == iid)).map
      (fun p => (p.quantity : ℚ) * p.base_unit_yield)).sum =
    supply cat sbs iid := by
  unfold mkPurchases supply
  rw [List.filter_map, List.map_map]
  rw [List.filter_filter]
  have key := sum_filter_zero (fun b : Sku × Nat => decide (1 ≤ b.2))
    (fun b : Sku × Nat => b.1.ingredient_id == iid)
    (fun b : Sku × Nat => (b.2 : ℚ) * skuYieldQ cat b.1) sbs
    (fun b _ hP => by
      have hb0 : b.2 = 0 := by simpa using hP
      simp [hb0])
  exact key

theorem details_demand_sum (cat : Catalog) (iid : Nat) (hnd : recipeIdsNodup cat)
    (rbs : List (Recipe × Nat)) (hin : ∀ rb ∈ rbs, rb.1 ∈ cat.recipes) :
    ((mkRecipeLines rbs).map (fun d => (d.batches : ℚ) *
      (((cat.recipes.find? (fun rc => rc.id == d.recipe_id)).map
        (fun rc => recipeDemandFor cat rc iid)).getD 0))).sum =
    demand cat rbs iid := by
  unfold mkRecipeLines demand
  rw [List.map_map]
  have hcongr : ∀ rb ∈ rbs.filter (fun rb => decide (1 ≤ rb.2)),
      ((fun d : RecipeLine => (d.batches : ℚ) *
        (((cat.recipes.find? (fun rc => rc.id == d.recipe_id)).map
          (fun rc => recipeDemandFor cat rc iid)).getD 0)) ∘ mkRecipeLine) rb =
      (fun rb : Recipe × Nat => (rb.2 : ℚ) * recipeDemandFor cat rb.1 iid) rb := by
    intro rb hrb
    have hmem : rb.1 ∈ cat.recipes := hin rb (List.mem_filter.mp hrb).1
    simp only [Function.comp, mkRecipeLine]
    rw [find?_recipe_id hnd hmem]
    rfl
  rw [List.map_congr_left hcongr]
  exact sum_map_filter_zero (fun rb : Recipe × Nat => decide (1 ≤ rb.2))
    (fun rb : Recipe × Nat => (rb.2 : ℚ) * recipeDemandFor cat rb.1 iid) rbs
    (fun b _ hP => by
      have hb0 : b.2 = 0 := by simpa using hP
      simp [hb0])

end Core

namespace Core

theorem purchasable_eligible {cat : Catalog} {req : PlanRequest} {s : Sku}
    (h : s ∈ purchasableSkus cat req) : skuEligible cat req s = true := by
  unfold purchasableSkus at h
  rcases List.mem_flatMap.mp h with ⟨iid, -, hmem⟩
  have h2 := (List.mem_filter.mp hmem).2
  simp only [Bool.and_eq_true] at h2
  exact h2.2

theorem skuEligible_parts {cat : Catalog} {req : PlanRequest} {s : Sku}
    (h : skuEligible cat req s = true) :
    0 < s.price ∧ 0 < s.size_quantity ∧ (skuYield cat s).toOption.isSome = true := by
  unfold skuEligible at h
  simp only [Bool.and_eq_true, decide_eq_true_eq] at h
  exact ⟨h.1.1.1.2, h.1.1.2, h.1.2⟩

theorem convert_ok_pos {q x : ℚ} {u b : String} {hint : Option ℚ}
    (hq : 0 < q) (hh : ∀ y, hint = some y → 0 < y)
    (hok : convert q u b hint = .ok x) : 0 < x := by
  unfold convert at hok
  split at hok
  · rename_i f g hfu hfb
    split at hok
    · injection hok with hok
      rw [← hok]
      exact mul_pos hq (div_pos (toBaseFactor_pos hfu) (toBaseFactor_pos hfb))
    · cases hint with
      | none => exact Except.noConfusion hok
      | some y =>
          injection hok with hok
          rw [← hok]
          exact mul_pos hq (hh y rfl)
  · exact Except.noConfusion hok

theorem hint_pos {cat : Catalog} (hhint : hintsPositive cat) (iid : Nat) :
    ∀ y, ingredientHint cat iid = some y → 0 < y := by
  intro y hy
  unfold ingredientHint findIngredient at hy
  cases hfind : cat.ingredients.find? (fun i => i.id == iid) with
  | none =>
      rw [hfind] at hy
      exact Option.noConfusion hy
  | some i =>
      rw [hfind] at hy
      exact hhint i (List.mem_of_find?_eq_some hfind) y hy

theorem skuYieldQ_pos {cat : Catalog} {req : PlanRequest} {s : Sku}
    (hhint : hintsPositive cat) (he : skuEligible cat req s = true) :
    0 < skuYieldQ cat s := by
  obtain ⟨-, hsz, hsome⟩ := skuEligible_parts he
  cases hy : skuYield cat s with
  | error e =>
      rw [hy] at hsome
      exact absurd hsome (by simp [Except.toOption])
  | ok x =>
      have hx : 0 < x := convert_ok_pos hsz (hint_pos hhint s.ingredient_id) hy
      unfold skuYieldQ
      rw [hy]
      exact hx

theorem mem_needed_of_candidate {cat : Catalog} {req : PlanRequest} {r : Recipe}
    (hr : r ∈ candidateRecipes cat req) {e : IngredientReq} (he : e ∈ r.ingredients) :
    e.ingredient_id ∈ neededIngredientIds cat req := by
  unfold neededIngredientIds
  rw [List.mem_dedup]
  exact List.mem_map.mpr ⟨e, List.mem_flatMap.mpr ⟨r, hr, he⟩, rfl⟩

theorem candidate_in_catalog {cat : Catalog} {req : PlanRequest} {r : Recipe}
    (hr : r ∈ candidateRecipes cat req) : r ∈ cat.recipes :=
  (List.mem_filter.mp hr).1

theorem zipSB_sku_mem {cat : Catalog} {req : PlanRequest} {us : List Nat}
    {b : Sku × Nat} (hb : b ∈ zipSB cat req us) : b.1 ∈ purchasableSkus cat req := by
  obtain ⟨s, n⟩ := b
  exact (List.of_mem_zip hb).1

theorem zipRB_recipe_mem {cat : Catalog} {req : PlanRequest} {bs : List Nat}
    {rb : Recipe × Nat} (hrb : rb ∈ zipRB cat req bs) :
    rb.1 ∈ candidateRecipes cat req := by
  obtain ⟨r, n⟩ := rb
  exact (List.of_mem_zip hrb).1

theorem supply_zip_nonneg {cat : Catalog} {req : PlanRequest}
    (hhint : hintsPositive cat) (us : List Nat) (iid : Nat) :
    0 ≤ supply cat (zipSB cat req us) iid := by
  unfold supply
  apply List.sum_nonneg
  intro x hx
  rcases List.mem_map.mp hx with ⟨b, hb, rfl⟩
  have hbm := (List.mem_filter.mp hb).1
  have hel := purchasable_eligible (zipSB_sku_mem hbm)
  exact mul_nonneg (Nat.cast_nonneg b.2) (le_of_lt (skuYieldQ_pos hhint hel))

end Core

/-- C1: for every plan result with status Optimal: every chosen recipe line
has batches at least 1; for every ingredient required by at least one chosen
recipe, the purchased SKU quantity summed in base units covers the total
demand of the chosen recipes at their batch counts; and all reported
quantities and prices (purchase prices, package yields, purchase counts,
shopping-list quantities) are non-negative. Stated for catalogs with
distinct recipe ids and positive per-ingredient hints. -/
theorem c1_optimal_plan_invariants (cat : Core.Catalog) (req : Core.PlanRequest)
    (seed : Nat) (r : Core.PlanResult)
    (hnd : Core.recipeIdsNodup cat) (hhint : Core.hintsPositive cat)
    (hok : Core.solvePlan cat req seed = .ok r) (hopt : r.status = .Optimal) :
    (∀ d ∈ r.recipe_details, 1 ≤ d.batches) ∧
    (∀ iid, (∃ d ∈ r.recipe_details, ∃ rc ∈ cat.recipes, rc.id = d.recipe_id ∧
        iid ∈ rc.ingredients.map (fun e => e.ingredient_id)) →
      Core.resultDemand cat r iid ≤ Core.resultSupply r iid) ∧
    (∀ p ∈ r.purchases, 0 ≤ p.unit_price ∧ 0 ≤ p.base_unit_yield) ∧
    (∀ l ∈ r.shopping_list, 0 ≤ l.quantity) := by
  obtain ⟨a, hpick, hr⟩ := Core.solvePlan_ok_optimal hok hopt
  subst hr
  have hmemA : a ∈ Core.satisfyingAssigns cat req :=
    (List.rotate_perm _ seed).subset (Core.pickBest_mem hpick)
  have hsat := Core.satisfies_unpack (Core.mem_satisfyingAssigns hmemA)
  refine ⟨?_, ?_, ?_, ?_⟩
  · intro d hd
    simp only [Core.assemble, Core.mkRecipeLines] at hd
    rcases List.mem_map.mp hd with ⟨rb, hrbf, rfl⟩
    have hb := of_decide_eq_true (List.mem_filter.mp hrbf).2
    simpa [Core.mkRecipeLine] using hb
  · rintro iid ⟨d, hd, rc, hrc, hrcid, hiid⟩
    simp only [Core.assemble, Core.mkRecipeLines] at hd
    rcases List.mem_map.mp hd with ⟨rb, hrbf, rfl⟩
    have hrbs : rb ∈ Core.zipRB cat req a.1 := (List.mem_filter.mp hrbf).1
    have hcand := Core.zipRB_recipe_mem hrbs
    have hcat := Core.candidate_in_catalog hcand
    have hiddq : rc.id = rb.1.id := by simpa [Core.mkRecipeLine] using hrcid
    have h1 := Core.find?_recipe_id hnd hrc
    have h2 := Core.find?_recipe_id hnd hcat
    rw [hiddq] at h1
    rw [h1] at h2
    have hrceq : rc = rb.1 := Option.some_inj.mp h2
    subst hrceq
    rcases List.mem_map.mp hiid with ⟨e, he, rfl⟩
    have hneed := Core.mem_needed_of_candidate hcand he
    have hcov := hsat.1 _ hneed
    have hd1 : Core.resultDemand cat
        (Core.assemble cat req (Core.zipRB cat req a.1) (Core.zipSB cat req a.2))
        e.ingredient_id = Core.demand cat (Core.zipRB cat req a.1) e.ingredient_id := by
      unfold Core.resultDemand
      simp only [Core.assemble]
      exact Core.details_demand_sum cat e.ingredient_id hnd _
        (fun rb h => Core.candidate_in_catalog (Core.zipRB_recipe_mem h))
    have hs1 : Core.resultSupply
        (Core.assemble cat req (Core.zipRB cat req a.1) (Core.zipSB cat req a.2))
        e.ingredient_id = Core.supply cat (Core.zipSB cat req a.2) e.ingredient_id := by
      unfold Core.resultSupply
      simp only [Core.assemble]
      exact Core.purchases_supply_sum cat e.ingredient_id _
    rw [hd1, hs1]
    exact hcov
  · intro p hp
    simp only [Core.assemble, Core.mkPurchases] at hp
    rcases List.mem_map.mp hp with ⟨b, hbf, rfl⟩
    have hbm : b ∈ Core.zipSB cat req a.2 := (List.mem_filter.mp hbf).1
    have hel := Core.purchasable_eligible (Core.zipSB_sku_mem hbm)
    obtain ⟨hprice, -, -⟩ := Core.skuEligible_parts hel
    exact ⟨le_of_lt hprice, le_of_lt (Core.skuYieldQ_pos hhint hel)⟩
  · intro l hl
    simp only [Core.assemble, Core.mkShopping] at hl
    rcases List.mem_filterMap.mp hl with ⟨iid, hiid, heq⟩
    split at heq
    · injection heq with heq
      rw [← heq]
      exact Core.supply_zip_nonneg hhint a.2 iid
    · exact Option.noConfusion heq

set_option maxRecDepth 4000 in
/-- Witness for C1: on the Scenario-A fixture the optimal plan covers the
flour demand with the purchased package. -/
theorem c1_optimal_plan_invariants_witness :
    Core.resultDemand Core.demoCat Core.demoResult 1 ≤ Core.resultSupply Core.demoResult 1 :=
  (c1_optimal_plan_invariants Core.demoCat Core.demoReq 0 Core.demoResult
    (show (Core.demoCat.recipes.map (fun r => r.id)).Nodup by decide)
    (fun i hi y hy => by
      simp only [Core.demoCat, Core.demoIng, List.mem_cons, List.not_mem_nil, or_false] at hi
      subst hi
      exact Option.noConfusion hy)
    (by with_unfolding_all decide) rfl).2.1 1
    ⟨⟨1, "bread", 1, 4, 4⟩, by with_unfolding_all decide, Core.demoRecipe,
      by with_unfolding_all decide, rfl, by with_unfolding_all decide⟩

/-- C2: for a recipe id in the required or force-include list: when a
candidate recipe carries that id, any returned Optimal plan chooses it with
batches at least 1; and when the catalog recipe with that id is blocked by
an unavailable (or unconvertible) ingredient, `solvePlan` returns a
fully-formed Infeasible result whose reason names a blocked required recipe
and its blocking ingredient — the required selection is never silently
dropped. Stated for catalogs with distinct recipe ids. -/
theorem c2_required_recipe_inclusion (cat : Core.Catalog) (req : Core.PlanRequest)
    (seed : Nat) (rid : Nat) (hnd : Core.recipeIdsNodup cat)
    (hrid : rid ∈ req.required_recipe_ids ++ req.include_every_recipe_ids) :
    (∀ r, Core.solvePlan cat req seed = .ok r → r.status = .Optimal →
      (∃ rc ∈ Core.candidateRecipes cat req, rc.id = rid) →
        ∃ d ∈ r.recipe_details, d.recipe_id = rid ∧ 1 ≤ d.batches) ∧
    (∀ rc ∈ cat.recipes, rc.id = rid →
      Core.recipeBlockingIngredients cat req rc ≠ [] →
      0 < req.target_servings →
        ∃ r', Core.solvePlan cat req seed = .ok r' ∧ r'.status = .Infeasible ∧
          ∃ rcb biid, rcb ∈ cat.recipes ∧
            rcb.id ∈ req.required_recipe_ids ++ req.include_every_recipe_ids ∧
            biid ∈ Core.recipeBlockingIngredients cat req rcb ∧
            r'.reason = some (.requiredRecipeUnavailable rcb.name
              (Core.ingredientName cat biid))) := by
  constructor
  · intro r hok hopt hex
    obtain ⟨a, hpick, hr⟩ := Core.solvePlan_ok_optimal hok hopt
    subst hr
    have hmemA : a ∈ Core.satisfyingAssigns cat req :=
      (List.rotate_perm _ seed).subset (Core.pickBest_mem hpick)
    have hsat := Core.satisfies_unpack (Core.mem_satisfyingAssigns hmemA)
    obtain ⟨rb, hrb, hid, hb⟩ := hsat.2.2.2 rid hrid hex
    refine ⟨Core.mkRecipeLine rb, ?_, hid, hb⟩
    simp only [Core.assemble, Core.mkRecipeLines]
    exact List.mem_map.mpr ⟨rb, List.mem_filter.mpr ⟨hrb, decide_eq_true hb⟩, rfl⟩
  · intro rc hrc hrcid hblock hpos
    cases hfb : Core.firstBlockedRequired cat req with
    | none =>
        exfalso
        have hall := List.findSome?_eq_none_iff.mp hfb rid hrid
        rw [← hrcid, Core.find?_recipe_id hnd hrc, Option.some_bind] at hall
        cases hbl : Core.recipeBlockingIngredients cat req rc with
        | nil => exact hblock hbl
        | cons biid rest =>
            rw [hbl] at hall
            exact Option.noConfusion hall
    | some p =>
        obtain ⟨rcb, biid⟩ := p
        have hsolve : Core.solvePlan cat req seed =
            .ok (Core.emptyInfeasible (.requiredRecipeUnavailable rcb.name
              (Core.ingredientName cat biid))) := by
          unfold Core.solvePlan
          rw [if_neg (not_le.mpr hpos), hfb]
        refine ⟨_, hsolve, rfl, ?_⟩
        obtain ⟨a, ha, hfa⟩ := List.exists_of_findSome?_eq_some hfb
        cases hfind : cat.recipes.find? (fun r2 => r2.id == a) with
        | none =>
            rw [hfind] at hfa
            exact Option.noConfusion hfa
        | some rc2 =>
            rw [hfind, Option.some_bind] at hfa
            cases hbl : Core.recipeBlockingIngredients cat req rc2 with
            | nil =>
                rw [hbl] at hfa
                exact Option.noConfusion hfa
            | cons b rest =>
                rw [hbl] at hfa
                injection hfa with hfa
                have hb1 : rc2 = rcb := congrArg Prod.fst hfa
                have hb2 : b = biid := congrArg Prod.snd hfa
                subst hb1
                subst hb2
                have hida : rc2.id = a := by
                  simpa using List.find?_some hfind
                refine ⟨rc2, b, List.mem_of_find?_eq_some hfind, ?_, ?_, rfl⟩
                · rw [hida]
                  exact ha
                · rw [hbl]
                  exact List.mem_cons_self b _

set_option maxRecDepth 4000 in
/-- Witness for C2: with the only SKU expired, requiring the bread recipe
yields an Infeasible result naming the blocked recipe and ingredient. -/
theorem c2_required_recipe_inclusion_witness :
    ∃ r', Core.solvePlan Core.demoCatExpired Core.demoReqRequired 0 = .ok r' ∧
      r'.status = .Infeasible ∧
      ∃ rcb biid, rcb ∈ Core.demoCatExpired.recipes ∧
        rcb.id ∈ Core.demoReqRequired.required_recipe_ids ++
          Core.demoReqRequired.include_every_recipe_ids ∧
        biid ∈ Core.recipeBlockingIngredients Core.demoCatExpired Core.demoReqRequired rcb ∧
        r'.reason = some (.requiredRecipeUnavailable rcb.name
          (Core.ingredientName Core.demoCatExpired biid)) :=
  (c2_required_recipe_inclusion Core.demoCatExpired Core.demoReqRequired 0 1
    (show (Core.demoCatExpired.recipes.map (fun r => r.id)).Nodup by decide)
    (by decide)).2 Core.demoRecipe (by with_unfolding_all decide) rfl
    (by with_unfolding_all decide) (by norm_num [Core.demoReqRequired])

namespace Core

theorem pickBest_none {cat : Catalog} {req : PlanRequest}
    {l : List (List Nat × List Nat)} : pickBest cat req l = none ↔ l = [] := by
  cases l <;> simp [pickBest]

end Core

/-- C6: solving the same (catalog snapshot, request) twice — the seed stands
in for the MIP solver's arbitrary choice among equal-cost optima — yields the
same objective value (and the same rejection of invalid requests). -/
theorem c6_objective_idempotent (cat : Core.Catalog) (req : Core.PlanRequest)
    (s1 s2 : Nat) :
    Core.objectiveOf (Core.solvePlan cat req s1) =
      Core.objectiveOf (Core.solvePlan cat req s2) := by
  unfold Core.solvePlan
  split
  · rfl
  · split
    · rfl
    · split
      · rfl
      · have hperm : ((Core.satisfyingAssigns cat req).rotate s1).Perm
            ((Core.satisfyingAssigns cat req).rotate s2) :=
          (List.rotate_perm _ s1).trans (List.rotate_perm _ s2).symm
        cases hp1 : Core.pickBest cat req ((Core.satisfyingAssigns cat req).rotate s1) with
        | none =>
            cases hp2 : Core.pickBest cat req
                ((Core.satisfyingAssigns cat req).rotate s2) with
            | none => rfl
            | some a2 =>
                exfalso
                have h1 := Core.pickBest_none.mp hp1
                have hlen := hperm.length_eq
                rw [h1, List.length_nil] at hlen
                have h2 : (Core.satisfyingAssigns cat req).rotate s2 = [] :=
                  List.eq_nil_of_length_eq_zero hlen.symm
                exact List.not_mem_nil a2 (h2 ▸ Core.pickBest_mem hp2)
        | some a1 =>
            cases hp2 : Core.pickBest cat req
                ((Core.satisfyingAssigns cat req).rotate s2) with
            | none =>
                exfalso
                have h2 := Core.pickBest_none.mp hp2
                have hlen := hperm.length_eq
                rw [h2, List.length_nil] at hlen
                have h1 : (Core.satisfyingAssigns cat req).rotate s1 = [] :=
                  List.eq_nil_of_length_eq_zero hlen
                exact List.not_mem_nil a1 (h1 ▸ Core.pickBest_mem hp1)
            | some a2 =>
                have hc1 := Core.pickBest_cost hp1
                have hc2 := Core.pickBest_cost hp2
                have hmp := hperm.map (Core.assignCost cat req)
                have hmin := Core.minQ_perm hmp
                rw [hc1, hc2] at hmin
                injection hmin with hmin
                simp only [Core.objectiveOf, Core.assemble]
                exact congrArg some hmin

namespace Core

theorem renderReason_ne_empty (re : InfeasibleReason) : renderReason re ≠ "" := by
  cases re with
  | requiredRecipeUnavailable a b =>
      intro h
      have hl := congrArg String.length h
      simp only [renderReason, String.length_append] at hl
      have h16 : String.length "Required recipe " = 16 := rfl
      have h0 : String.length "" = 0 := rfl
      rw [h16, h0] at hl
      omega
  | mealTypeShortfall t =>
      intro h
      have hl := congrArg String.length h
      simp only [renderReason, String.length_append] at hl
      have h34 : String.length "No available recipes of meal type " = 34 := rfl
      have h0 : String.length "" = 0 := rfl
      rw [h34, h0] at hl
      omega
  | noFeasibleCombination =>
      intro h
      exact absurd (congrArg String.length h) (by decide)

end Core

/-- C7: whenever the solver reports infeasibility, `solvePlan` returns a
fully-formed value — status Infeasible, empty recipe, shopping and purchase
lists, and a populated human-readable reason; it is a total function (never
an exception) and never yields a partially-populated result for a failed
solve. -/
theorem c7_infeasible_fully_formed (cat : Core.Catalog) (req : Core.PlanRequest)
    (seed : Nat) (r : Core.PlanResult)
    (hok : Core.solvePlan cat req seed = .ok r)
    (hinf : r.status = .Infeasible) :
    r.recipe_details = [] ∧ r.shopping_list = [] ∧ r.purchases = [] ∧
    ∃ re, r.reason = some re ∧ Core.renderReason re ≠ "" := by
  unfold Core.solvePlan at hok
  split at hok
  · exact Except.noConfusion hok
  · split at hok
    · injection hok with hok
      rw [← hok]
      exact ⟨rfl, rfl, rfl, _, rfl, Core.renderReason_ne_empty _⟩
    · split at hok
      · injection hok with hok
        rw [← hok]
        exact ⟨rfl, rfl, rfl, _, rfl, Core.renderReason_ne_empty _⟩
      · split at hok
        · injection hok with hok
          rw [← hok] at hinf
          exact absurd hinf (by simp [Core.assemble])
        · injection hok with hok
          rw [← hok]
          exact ⟨rfl, rfl, rfl, _, rfl, Core.renderReason_ne_empty _⟩

set_option maxRecDepth 4000 in
/-- Witness for C7: the expired-SKU fixture with a required recipe returns
the empty Infeasible shape with a populated reason. -/
theorem c7_infeasible_fully_formed_witness :
    (Core.emptyInfeasible (.requiredRecipeUnavailable "bread" "flour")).recipe_details = [] ∧
    (Core.emptyInfeasible (.requiredRecipeUnavailable "bread" "flour")).shopping_list = [] ∧
    (Core.emptyInfeasible (.requiredRecipeUnavailable "bread" "flour")).purchases = [] ∧
    ∃ re, (Core.emptyInfeasible (.requiredRecipeUnavailable "bread" "flour")).reason = some re ∧
      Core.renderReason re ≠ "" :=
  c7_infeasible_fully_formed Core.demoCatExpired Core.demoReqRequired 0
    (Core.emptyInfeasible (.requiredRecipeUnavailable "bread" "flour"))
    (by with_unfolding_all decide) rfl

/-- C8: a plan request with a nonpositive serving target is rejected as
InvalidRequest before the solver runs: the outcome is an error value that is
independent of the catalog and of the solver's choice seed. -/
theorem c8_nonpositive_target_rejected (cat : Core.Catalog) (req : Core.PlanRequest)
    (seed : Nat) (h : req.target_servings ≤ 0) :
    Core.solvePlan cat req seed =
      .error (.invalidRequest "target_servings must be positive") ∧
    ∀ (cat' : Core.Catalog) (seed' : Nat),
      Core.solvePlan cat req seed = Core.solvePlan cat' req seed' := by
  constructor
  · unfold Core.solvePlan
    rw [if_pos h]
  · intro cat' seed'
    unfold Core.solvePlan
    rw [if_pos h, if_pos h]

/-- Witness for C8: the zero-target request is rejected. -/
theorem c8_nonpositive_target_rejected_witness :
    Core.solvePlan Core.demoCat Core.demoReqZero 0 =
      .error (.invalidRequest "target_servings must be positive") :=
  (c8_nonpositive_target_rejected Core.demoCat Core.demoReqZero 0
    (by norm_num [Core.demoReqZero])).1
